import Mathlib

/-!
Shallow embedding of the paginated GraphQL aggregation logic of the
mattermost-plugin-github repository (package `graphql`):
`GetYourPrs` (pull_request.go), `GetYourAssignment` (assignment.go),
`GetLHSData` and `getPRorIssue` (lhs_request.go), together with the
search-node record types (pull_request_query / assignment_query).

Go machine strings are Lean `String`s, `githubv4.Int` is `Int`,
`githubv4.DateTime` is `Int` (an abstract timestamp), `githubv4.Boolean`
is `Bool`.  A `*githubv4.String` cursor parameter is `Option String`
(`none` is the typed nil pointer sent on the first page request).
A Go function that can dereference a nil pointer is total here with
`Option` result, `none` being the panic branch.  The unbounded `for`
loops are embedded with explicit fuel; running out of fuel is the
distinguished `fuelOut` outcome so that termination is a provable
statement rather than an assumption.
-/

namespace MmGithub

/-- Repository sub-object of a search node (`repositoryQuery`). -/
structure repositoryQuery where
  name : String
  nameWithOwner : String
  url : String
deriving DecidableEq, Repr

/-- Author sub-object of a search node (`authorQuery`). -/
structure authorQuery where
  login : String
deriving DecidableEq, Repr

/-- The `... on PullRequest` variant of `prSearchNodes`. -/
structure prSearchPullRequest where
  body : String
  mergeable : String
  locked : Bool
  number : Int
  authorAssociation : String
  createdAt : Int
  updatedAt : Int
  repository : repositoryQuery
  reviewDecision : String
  state : String
  title : String
  author : authorQuery
  url : String
deriving DecidableEq, Repr

/-- A raw node of a pull-request search (`prSearchNodes`). -/
structure prSearchNodes where
  pullRequest : prSearchPullRequest
deriving DecidableEq, Repr

/-- The field set shared by the `... on Issue` and `... on PullRequest`
variants of `assignmentSearchNodes` (both anonymous structs in
assignment_query.go carry exactly these fields). -/
structure assignmentVariant where
  body : String
  number : Int
  authorAssociation : String
  createdAt : Int
  updatedAt : Int
  repository : repositoryQuery
  state : String
  title : String
  author : authorQuery
  url : String
deriving DecidableEq, Repr

/-- A raw node of an assignment search (`assignmentSearchNodes`): both
variants are decoded unconditionally, the zero value standing for the
absent one. -/
structure assignmentSearchNodes where
  issue : assignmentVariant
  pullRequest : assignmentVariant
deriving DecidableEq, Repr

/-- The normalized output record: the seven fields of `github.Issue`
that this package populates (Number, RepositoryURL, Title, CreatedAt,
UpdatedAt, User.Login, HTMLURL). -/
structure Issue where
  number : Int
  repositoryURL : String
  title : String
  createdAt : Int
  updatedAt : Int
  userLogin : String
  htmlURL : String
deriving DecidableEq, Repr

/-- `search(...)` page info (`PageInfo` with `EndCursor`, `HasNextPage`). -/
structure pageInfo where
  endCursor : String
  hasNextPage : Bool
deriving DecidableEq, Repr

/-- One page of one search result set (`Search` with `IssueCount`,
`Nodes`, `PageInfo`). -/
structure searchPage (α : Type) where
  issueCount : Int
  nodes : List α
  pageInfo : pageInfo
deriving DecidableEq, Repr

/-- Building the `github.Issue` record from the fields of a
pull-request search node variant (the extraction done at
lhs_request.go lines 102-118 and pull_request.go lines 37-53). -/
def issueOfPrVariant (r : prSearchPullRequest) : Issue :=
  { number := r.number
    repositoryURL := r.repository.url
    title := r.title
    createdAt := r.createdAt
    updatedAt := r.updatedAt
    userLogin := r.author.login
    htmlURL := r.url }

/-- Building the `github.Issue` record from the fields of an
assignment search node variant (assignment.go lines 39-55 and 57-73). -/
def issueOfAssignmentVariant (r : assignmentVariant) : Issue :=
  { number := r.number
    repositoryURL := r.repository.url
    title := r.title
    createdAt := r.createdAt
    updatedAt := r.updatedAt
    userLogin := r.author.login
    htmlURL := r.url }

/-- `getPRorIssue` (lhs_request.go lines 94-119).  The very first
statement `resp := prResp.PullRequest` dereferences `prResp`, so a nil
`prResp` is the panic branch (`none`) no matter what `assignmentResp`
holds.  When both arguments are non-nil and the assignment node's issue
number is zero, the record is built from the assignment node's
PullRequest variant (line 98), otherwise from `prResp.PullRequest`. -/
def getPRorIssue (prResp : Option prSearchNodes)
    (assignmentResp : Option assignmentSearchNodes) : Option Issue :=
  match prResp with
  | none => none
  | some prr =>
    match assignmentResp with
    | some a =>
      if a.issue.number = 0 then
        some (issueOfAssignmentVariant a.pullRequest)
      else
        some (issueOfPrVariant prr.pullRequest)
    | none => some (issueOfPrVariant prr.pullRequest)

/-- The inline normalizer of `GetYourAssignment` (assignment.go lines
38-74): the Issue variant is selected when its `Number` is non-zero,
otherwise the PullRequest variant is used. -/
def normalizeAssignmentNode (nd : assignmentSearchNodes) : Issue :=
  if nd.issue.number ≠ 0 then issueOfAssignmentVariant nd.issue
  else issueOfAssignmentVariant nd.pullRequest

/-- The inline normalizer of `GetYourPrs` (pull_request.go lines
36-53): every node is read through its PullRequest variant. -/
def normalizePrSearchNode (nd : prSearchNodes) : Issue :=
  issueOfPrVariant nd.pullRequest

/-- The parameter map of a single-query aggregation: the search filter
expression (`prSearchQueryArg` / `assignmentSearchQueryArg`) and the
pagination cursor (`prsCursor` / `assignmentCursor`). -/
structure singleParams where
  searchQuery : String
  cursor : Option String
deriving DecidableEq, Repr

/-- Outcome of a single-query aggregation call: `ret res err` mirrors
the Go pair return value (`return res, nil` or `return nil, err`);
`fuelOut` marks that the loop did not finish within the given fuel. -/
inductive singleOutcome where
  | ret (res : List Issue) (err : Option String)
  | fuelOut
deriving DecidableEq, Repr

/-- Modelled from the spec: `executeQuery` (the network round trip of
the internal client, not part of the provided sources) is an oracle
`searchRoundTrip` mapping the request parameters to one page result or
a transport error, per the spec's search operation
`search(filterExpression, cursor) -> (nodes, hasNextPage, nextCursor)`. -/
def searchRoundTrip (α : Type) : Type := singleParams → Except String (searchPage α)

/-- The shared pagination loop shape of `GetYourPrs` (pull_request.go
lines 31-63) and `GetYourAssignment` (assignment.go lines 31-84): fetch
a page with the current params, on error return `nil, err`; append the
normalized nodes; stop when the page has no next page, otherwise store
the end cursor in the params and loop.  The first component of the
result is the trace of requests issued, in order. -/
def searchLoop {α : Type} (norm : α → Issue) (f : searchRoundTrip α) :
    Nat → singleParams → List singleParams → List Issue →
    List singleParams × singleOutcome
  | 0, _, tr, _ => (tr.reverse, .fuelOut)
  | n + 1, p, tr, res =>
    match f p with
    | .error e => ((p :: tr).reverse, .ret [] (some e))
    | .ok page =>
      let res' := res ++ page.nodes.map norm
      if page.pageInfo.hasNextPage then
        searchLoop norm f n { p with cursor := some page.pageInfo.endCursor }
          (p :: tr) res'
      else
        ((p :: tr).reverse, .ret res' none)

/-- The initial filter expression of `GetYourPrs` (pull_request.go
lines 19-26): `fmt.Sprintf("author:%s is:pr is:%s archived:false", username,
githubv4.PullRequestStateOpen)`, prefixed by `org:<org> ` when the
client is configured with a non-empty organization. -/
def prsFilter (username org : String) : String :=
  let q := "author:" ++ username ++ " is:pr is:OPEN archived:false"
  if org ≠ "" then "org:" ++ org ++ " " ++ q else q

/-- The initial filter expression of `GetYourAssignment` (assignment.go
lines 19-26); note the double space of the source format string
`"assignee:%s  is:%s archived:false"`. -/
def assignmentFilter (username org : String) : String :=
  let q := "assignee:" ++ username ++ "  is:OPEN archived:false"
  if org ≠ "" then "org:" ++ org ++ " " ++ q else q

/-- `GetYourPrs` (pull_request.go lines 18-66). -/
def GetYourPrs (username org : String) (f : searchRoundTrip prSearchNodes)
    (fuel : Nat) : List singleParams × singleOutcome :=
  searchLoop normalizePrSearchNode f fuel ⟨prsFilter username org, none⟩ [] []

/-- `GetYourAssignment` (assignment.go lines 18-87). -/
def GetYourAssignment (username org : String)
    (f : searchRoundTrip assignmentSearchNodes) (fuel : Nat) :
    List singleParams × singleOutcome :=
  searchLoop normalizeAssignmentNode f fuel ⟨assignmentFilter username org, none⟩ [] []

/-- The parameter map of `GetLHSData` (lhs_request.go lines 21-28):
three filter expressions (`prOpenQueryArg`, `prReviewQueryArg`,
`assigneeQueryArg`) and three cursors (`reviewCursor`,
`assignmentsCursor`, `openPrsCursor`).  The loop mutates only the
cursor fields. -/
structure lhsParams where
  prOpenQueryArg : String
  prReviewQueryArg : String
  assigneeQueryArg : String
  reviewCursor : Option String
  assignmentsCursor : Option String
  openPrsCursor : Option String
deriving DecidableEq, Repr

/-- Modelled from the spec: the shape of the package-level `mainQuery`
value (its struct declaration is not among the provided sources) as
reconstructed from its uses in `GetLHSData` and the spec's
combined-query search operation: three named, independently paginated
search result sets — `PullRequest` (review requests, paged by
`reviewCursor`), `Assignee` (paged by `assignmentsCursor`) and
`OpenPullRequest` (paged by `openPrsCursor`). -/
structure mainQueryResponse where
  pullRequest : searchPage prSearchNodes
  assignee : searchPage assignmentSearchNodes
  openPullRequest : searchPage prSearchNodes
deriving DecidableEq, Repr

/-- Modelled from the spec: one combined round trip of `executeQuery`
on `mainQuery`, an oracle from the request parameters to the three page
results or a transport error. -/
def lhsRoundTrip : Type := lhsParams → Except String mainQueryResponse

/-- Outcome of `GetLHSData`: `ret a b c err` mirrors the quadruple Go
return value (`return resultPR, resultAssignee, resultOpenPR, nil` on
success, `return nil, nil, nil, err` on a failed round trip);
`panicked` is the nil-pointer dereference inside `getPRorIssue`;
`fuelOut` marks fuel exhaustion of the unbounded loop. -/
inductive lhsOutcome where
  | ret (resultPR resultAssignee resultOpenPR : List Issue) (err : Option String)
  | panicked
  | fuelOut
deriving DecidableEq, Repr

/-- The per-node body of the `!flagPR` / `!flagOpenPr` branches
(lhs_request.go lines 49-53 and 77-81): normalize each node with
`getPRorIssue(&resp, nil)` and append it; `none` is a panic. -/
def appendPrNodes (res : List Issue) : List prSearchNodes → Option (List Issue)
  | [] => some res
  | nd :: rest =>
    match getPRorIssue (some nd) none with
    | none => none
    | some pr => appendPrNodes (res ++ [pr]) rest

/-- The per-node body of the `!flagAssignee` branch (lhs_request.go
lines 63-67): normalize each node with `getPRorIssue(nil, &resp)` and
append it; `none` is a panic. -/
def appendAssignmentNodes (res : List Issue) :
    List assignmentSearchNodes → Option (List Issue)
  | [] => some res
  | nd :: rest =>
    match getPRorIssue none (some nd) with
    | none => none
    | some pr => appendAssignmentNodes (res ++ [pr]) rest

/-- One `!flag` guarded block of the `GetLHSData` loop for a
pull-request-shaped result set (lhs_request.go lines 48-60 and 76-88):
when the flag is set the block is skipped (result list, flag and cursor
param untouched); otherwise the page's nodes are collected, the flag
becomes true exactly when the page has no next page, and the cursor
param becomes the page's end cursor. -/
def lhsStepPrQuery (flag : Bool) (r : List Issue) (cur : Option String)
    (page : searchPage prSearchNodes) :
    Option (List Issue × Bool × Option String) :=
  if flag then some (r, flag, cur)
  else
    match appendPrNodes r page.nodes with
    | none => none
    | some r' =>
      some (r', !page.pageInfo.hasNextPage, some page.pageInfo.endCursor)

/-- The `!flagAssignee` block (lhs_request.go lines 62-74), identical
in shape but normalizing with `getPRorIssue(nil, &resp)`. -/
def lhsStepAssigneeQuery (flag : Bool) (r : List Issue) (cur : Option String)
    (page : searchPage assignmentSearchNodes) :
    Option (List Issue × Bool × Option String) :=
  if flag then some (r, flag, cur)
  else
    match appendAssignmentNodes r page.nodes with
    | none => none
    | some r' =>
      some (r', !page.pageInfo.hasNextPage, some page.pageInfo.endCursor)

/-- One iteration of the `GetLHSData` loop after a successful round
trip (lhs_request.go lines 48-88): the three blocks run in source
order; the result is the updated params, flags and result lists,
`none` being the panic raised while normalizing a node. -/
def lhsProcess (p : lhsParams) (flagPR flagAssignee flagOpenPr : Bool)
    (rPR rA rO : List Issue) (mq : mainQueryResponse) :
    Option (lhsParams × Bool × Bool × Bool × List Issue × List Issue × List Issue) :=
  match lhsStepPrQuery flagPR rPR p.reviewCursor mq.pullRequest with
  | none => none
  | some (rPR', flagPR', revC) =>
    match lhsStepAssigneeQuery flagAssignee rA p.assignmentsCursor mq.assignee with
    | none => none
    | some (rA', flagAssignee', asgC) =>
      match lhsStepPrQuery flagOpenPr rO p.openPrsCursor mq.openPullRequest with
      | none => none
      | some (rO', flagOpenPr', openC) =>
        some ({ p with
                  reviewCursor := revC
                  assignmentsCursor := asgC
                  openPrsCursor := openC },
          flagPR', flagAssignee', flagOpenPr', rPR', rA', rO')

/-- The `for` loop of `GetLHSData` (lhs_request.go lines 39-89): break
when all three flags are set, otherwise execute the combined query (on
error return `nil, nil, nil, err`), then process the three result sets.
The first component of the result is the trace of requests issued. -/
def lhsLoop (F : lhsRoundTrip) :
    Nat → lhsParams → Bool → Bool → Bool →
    List Issue → List Issue → List Issue → List lhsParams →
    List lhsParams × lhsOutcome
  | 0, _, _, _, _, _, _, _, tr => (tr.reverse, .fuelOut)
  | n + 1, p, flagPR, flagAssignee, flagOpenPr, rPR, rA, rO, tr =>
    if flagPR && flagAssignee && flagOpenPr then
      (tr.reverse, .ret rPR rA rO none)
    else
      match F p with
      | .error e => ((p :: tr).reverse, .ret [] [] [] (some e))
      | .ok mq =>
        match lhsProcess p flagPR flagAssignee flagOpenPr rPR rA rO mq with
        | none => ((p :: tr).reverse, .panicked)
        | some (p', flagPR', flagAssignee', flagOpenPr', rPR', rA', rO') =>
          lhsLoop F n p' flagPR' flagAssignee' flagOpenPr' rPR' rA' rO' (p :: tr)

/-- The initial parameter map of `GetLHSData` (lhs_request.go lines
21-34): the three filter expressions with `org:<org> ` prefixed to each
when the client is configured with a non-empty organization, and the
three cursors as typed nil pointers. -/
def lhsInitParams (username org : String) : lhsParams :=
  let openQ := "author:" ++ username ++ " is:pr is:OPEN archived:false"
  let reviewQ := "review-requested:" ++ username ++ " is:pr is:OPEN archived:false"
  let assigneeQ := "assignee:" ++ username ++ " is:OPEN archived:false"
  if org ≠ "" then
    { prOpenQueryArg := "org:" ++ org ++ " " ++ openQ
      prReviewQueryArg := "org:" ++ org ++ " " ++ reviewQ
      assigneeQueryArg := "org:" ++ org ++ " " ++ assigneeQ
      reviewCursor := none, assignmentsCursor := none, openPrsCursor := none }
  else
    { prOpenQueryArg := openQ, prReviewQueryArg := reviewQ
      assigneeQueryArg := assigneeQ
      reviewCursor := none, assignmentsCursor := none, openPrsCursor := none }

/-- `GetLHSData` (lhs_request.go lines 20-92). -/
def GetLHSData (username org : String) (F : lhsRoundTrip) (fuel : Nat) :
    List lhsParams × lhsOutcome :=
  lhsLoop F fuel (lhsInitParams username org) false false false [] [] [] []

/-- The round-trip oracle `f` serves, for filter `q` and starting
cursor `c`, exactly the finite page sequence `pages`: each page is
fetched at the cursor left by its predecessor, and `hasNextPage` is set
on every page except the last. -/
def searchChain {α : Type} (f : searchRoundTrip α) (q : String) :
    Option String → List (searchPage α) → Prop
  | _, [] => True
  | c, pg :: rest =>
    f ⟨q, c⟩ = .ok pg ∧ pg.pageInfo.hasNextPage = !rest.isEmpty ∧
      searchChain f q (some pg.pageInfo.endCursor) rest

/-- A pure per-query page oracle: for one named query of the combined
request, the page served as a function of that query's cursor alone
(the spec's independent `QuerySpec` pagination). -/
def queryOracle (α : Type) : Type := Option String → searchPage α

/-- The per-query oracle `f` serves, from starting cursor `c`, exactly
the page sequence `pages`, chained by end cursors, with `hasNextPage`
set on every page but the last. -/
def queryChain {α : Type} (f : queryOracle α) :
    Option String → List (searchPage α) → Prop
  | _, [] => True
  | c, pg :: rest =>
    f c = pg ∧ pg.pageInfo.hasNextPage = !rest.isEmpty ∧
      queryChain f (some pg.pageInfo.endCursor) rest

/-- Modelled from the spec: the combined round trip assembled from
three independent per-query oracles — each named result set of the
response is a function of its own cursor parameter only (spec §6's
combined-query variant of the search operation). -/
def combineFetch (fPR : queryOracle prSearchNodes)
    (fA : queryOracle assignmentSearchNodes)
    (fO : queryOracle prSearchNodes) : lhsRoundTrip :=
  fun p => .ok ⟨fPR p.reviewCursor, fA p.assignmentsCursor, fO p.openPrsCursor⟩

/-- The cursor parameter a chained query holds when round `t` begins:
`none` before the first page, afterwards the end cursor of the last
page fetched (page `min t (length pages) - 1`). -/
def cursorAt {α : Type} (pages : List (searchPage α)) (t : Nat) : Option String :=
  ((pages.take t).getLast?).map (fun pg => pg.pageInfo.endCursor)

/-- `cursorAt` with an explicit starting cursor, for chain induction. -/
def cursorAtFrom {α : Type} (c : Option String) (pages : List (searchPage α))
    (t : Nat) : Option String :=
  match (pages.take t).getLast? with
  | none => c
  | some pg => some pg.pageInfo.endCursor

/-- The output a pull-request-shaped query has accumulated from a page
list: every page's nodes, normalized, in page-then-within-page order. -/
def prPagesOut (pages : List (searchPage prSearchNodes)) : List Issue :=
  ((pages.map (fun pg => pg.nodes)).flatten).map normalizePrSearchNode

/-- The request `GetLHSData` issues at round `t` over three chained
queries: the three (immutable) filter expressions and each query's
round-`t` cursor. -/
def lhsReqAt (qO qR qA : String) (pagesR : List (searchPage prSearchNodes))
    (pagesA : List (searchPage assignmentSearchNodes))
    (pagesO : List (searchPage prSearchNodes)) (t : Nat) : lhsParams :=
  { prOpenQueryArg := qO, prReviewQueryArg := qR, assigneeQueryArg := qA
    reviewCursor := cursorAt pagesR t
    assignmentsCursor := cursorAt pagesA t
    openPrsCursor := cursorAt pagesO t }

/-- `leadsWith pat l` holds when `pat` is an initial segment of `l`. -/
def leadsWith : List Char → List Char → Bool
  | [], _ => true
  | _ :: _, [] => false
  | a :: pa, b :: l => a == b && leadsWith pa l

/-- Number of (possibly overlapping) occurrences of `pat` in a
character list, one candidate position per suffix. -/
def countOcc : List Char → List Char → Nat
  | [], pat => if leadsWith pat [] then 1 else 0
  | c :: l, pat => (if leadsWith pat (c :: l) then 1 else 0) + countOcc l pat

/-- Occurrence count of `pat` in the string `s`. -/
def countOccStr (s pat : String) : Nat := countOcc s.data pat.data

/-- The review-requested result list of a `GetLHSData` outcome, when
the call returned at all. -/
def lhsReviewResult : lhsOutcome → Option (List Issue)
  | .ret a _ _ _ => some a
  | _ => none

/-- A concrete repository for test fixtures. -/
def sampleRepo : repositoryQuery :=
  ⟨"hello", "octo/hello", "https://api.github.com/repos/octo/hello"⟩

/-- A concrete pull-request search node with number `k`. -/
def mkPrNode (k : Int) : prSearchNodes :=
  ⟨⟨"body", "MERGEABLE", false, k, "OWNER", k + 10, k + 20, sampleRepo,
    "APPROVED", "OPEN", "pr title", ⟨"alice"⟩,
    "https://github.com/octo/hello/pull/1"⟩⟩

/-- The zero value of an assignment node variant (the shape the decoder
leaves for the variant that did not match). -/
def zeroAssignmentVariant : assignmentVariant :=
  ⟨"", 0, "", 0, 0, ⟨"", "", ""⟩, "", "", ⟨""⟩, ""⟩

/-- A concrete assignment search node whose Issue variant is populated
(number `k`) and whose PullRequest variant is zero. -/
def mkAssignmentIssueNode (k : Int) : assignmentSearchNodes :=
  ⟨⟨"ibody", k, "OWNER", k + 10, k + 20, sampleRepo, "OPEN", "issue title",
    ⟨"alice"⟩, "https://github.com/octo/hello/issues/1"⟩,
   zeroAssignmentVariant⟩

/-- A concrete assignment search node whose PullRequest variant is
populated (number `k`) and whose Issue variant is zero. -/
def mkAssignmentPrNode (k : Int) : assignmentSearchNodes :=
  ⟨zeroAssignmentVariant,
   ⟨"pbody", k, "OWNER", k + 10, k + 20, sampleRepo, "OPEN", "apr title",
    ⟨"bob"⟩, "https://github.com/octo/hello/pull/2"⟩⟩

/-- Page 1 of the worked example: two nodes, more pages, cursor c1. -/
def c9Page1 : searchPage assignmentSearchNodes :=
  ⟨3, [mkAssignmentIssueNode 1, mkAssignmentIssueNode 2], ⟨"c1", true⟩⟩

/-- Page 2 of the worked example: one node, no further pages. -/
def c9Page2 : searchPage assignmentSearchNodes :=
  ⟨3, [mkAssignmentIssueNode 3], ⟨"c2", false⟩⟩

/-- The worked-example server: page 1 for the initial request, page 2
at cursor c1. -/
def c9Fetch : searchRoundTrip assignmentSearchNodes := fun p =>
  if p.cursor = some "c1" then .ok c9Page2 else .ok c9Page1

/-- Review query fixture: a single page, immediately exhausted. -/
def c1PageR1 : searchPage prSearchNodes := ⟨1, [mkPrNode 1], ⟨"r1", false⟩⟩

/-- Assignee query fixture: a single empty page, immediately exhausted. -/
def c1PageA1 : searchPage assignmentSearchNodes := ⟨0, [], ⟨"a1", false⟩⟩

/-- Open-PR query fixture: first of two pages. -/
def c1PageO1 : searchPage prSearchNodes := ⟨2, [mkPrNode 2], ⟨"o1", true⟩⟩

/-- Open-PR query fixture: second and last page. -/
def c1PageO2 : searchPage prSearchNodes := ⟨2, [mkPrNode 3], ⟨"o2", false⟩⟩

def c1FetchR : queryOracle prSearchNodes := fun _ => c1PageR1

def c1FetchA : queryOracle assignmentSearchNodes := fun _ => c1PageA1

def c1FetchO : queryOracle prSearchNodes := fun c =>
  if c = some "o1" then c1PageO2 else c1PageO1

/-- An assignee oracle whose single page carries one node — enough to
make `GetLHSData` hit the nil dereference in `getPRorIssue`. -/
def c7FetchA : queryOracle assignmentSearchNodes :=
  fun _ => ⟨1, [mkAssignmentIssueNode 7], ⟨"a1", false⟩⟩

/-- An assignment node with zero identifiers on both variants but
recognizable residual fields on the PullRequest variant. -/
def c6Node : assignmentSearchNodes :=
  ⟨zeroAssignmentVariant,
   ⟨"", 0, "", 0, 0, ⟨"", "", "zrepo"⟩, "", "ghost", ⟨"gau"⟩, "zurl"⟩⟩

def c6Fetch : searchRoundTrip assignmentSearchNodes :=
  fun _ => .ok ⟨1, [c6Node], ⟨"", false⟩⟩

def errFetchPr : searchRoundTrip prSearchNodes := fun _ => .error "boom"

def errFetchAsg : searchRoundTrip assignmentSearchNodes := fun _ => .error "boom"

def errFetchLHS : lhsRoundTrip := fun _ => .error "boom"

/-- Single pull-request query fixture: first of two pages. -/
def c4PrPage1 : searchPage prSearchNodes :=
  ⟨3, [mkPrNode 1, mkPrNode 2], ⟨"p1", true⟩⟩

/-- Single pull-request query fixture: second and last page. -/
def c4PrPage2 : searchPage prSearchNodes := ⟨3, [mkPrNode 3], ⟨"p2", false⟩⟩

def c4FetchPr : searchRoundTrip prSearchNodes := fun p =>
  if p.cursor = some "p1" then .ok c4PrPage2 else .ok c4PrPage1

/-- An alternative single-page open-PR oracle, for runs that differ
only in one query's pages. -/
def c7PageOther : searchPage prSearchNodes := ⟨1, [mkPrNode 4], ⟨"q1", false⟩⟩

def c7FetchOther : queryOracle prSearchNodes := fun _ => c7PageOther

/-- Full run of the single-query pagination loop over a chained page
sequence: the trace is one request per page (the first with the
starting cursor, each later one with the previous page's end cursor)
and the outcome appends every page's nodes, normalized, in page order. -/
theorem searchLoop_run {α : Type} (norm : α → Issue) (f : searchRoundTrip α)
    (q : String) :
    ∀ (pages : List (searchPage α)) (c : Option String) (n : Nat)
      (tr : List singleParams) (res : List Issue),
      searchChain f q c pages → pages ≠ [] → pages.length ≤ n →
      searchLoop norm f n ⟨q, c⟩ tr res =
        (tr.reverse ++ ⟨q, c⟩ ::
            pages.dropLast.map
              (fun pg => (⟨q, some pg.pageInfo.endCursor⟩ : singleParams)),
         .ret (res ++ ((pages.map (fun pg => pg.nodes)).flatten).map norm) none) := by
  intro pages
  induction pages with
  | nil => intro c n tr res _ hne; exact absurd rfl hne
  | cons pg rest ih =>
    intro c n tr res hchain _ hlen
    obtain ⟨hf, hnext, hrest⟩ := hchain
    match n, hlen with
    | n + 1, hlen =>
      rw [searchLoop, hf]
      cases rest with
      | nil =>
        simp only [List.isEmpty_nil, Bool.not_true] at hnext
        simp [hnext, List.reverse_cons]
      | cons r rs =>
        simp only [List.isEmpty_cons, Bool.not_false] at hnext
        simp only [hnext, if_true]
        rw [ih (some pg.pageInfo.endCursor) n (⟨q, c⟩ :: tr)
          (res ++ pg.nodes.map norm) hrest (by simp) (by simpa using hlen)]
        simp [List.dropLast, List.append_assoc]

/-- If the single-query loop returns with an error, the result list of
the return value is nil — whatever was accumulated from earlier pages
is discarded — and the error is one produced by the round-trip oracle. -/
theorem searchLoop_error {α : Type} (norm : α → Issue) (f : searchRoundTrip α) :
    ∀ (n : Nat) (p : singleParams) (tr tr' : List singleParams)
      (res rs : List Issue) (e : String),
      searchLoop norm f n p tr res = (tr', .ret rs (some e)) →
      rs = [] ∧ ∃ p', f p' = .error e := by
  intro n
  induction n with
  | zero => intro p tr tr' res rs e h; simp [searchLoop] at h
  | succ n ih =>
    intro p tr tr' res rs e h
    rw [searchLoop] at h
    cases hf : f p with
    | error e' =>
      rw [hf] at h
      simp only [Prod.mk.injEq, singleOutcome.ret.injEq, Option.some.injEq] at h
      exact ⟨h.2.1.symm, p, by rw [hf, h.2.2]⟩
    | ok page =>
      rw [hf] at h
      cases hn : page.pageInfo.hasNextPage with
      | true =>
        simp only [hn, if_true] at h
        exact ih _ _ _ _ _ _ h
      | false =>
        simp only [hn, Bool.false_eq_true, if_false, Prod.mk.injEq] at h
        exact absurd h.2 (by simp)

/-- The single-query loop never touches the filter expression: every
request of the trace carries the filter of the initial params (or was
already in the accumulated trace). -/
theorem searchLoop_queryArg {α : Type} (norm : α → Issue) (f : searchRoundTrip α) :
    ∀ (n : Nat) (p : singleParams) (tr : List singleParams) (res : List Issue)
      (x : singleParams), x ∈ (searchLoop norm f n p tr res).1 →
      x ∈ tr ∨ x.searchQuery = p.searchQuery := by
  intro n
  induction n with
  | zero =>
    intro p tr res x hx
    simp only [searchLoop, List.mem_reverse] at hx
    exact Or.inl hx
  | succ n ih =>
    intro p tr res x hx
    rw [searchLoop] at hx
    cases hf : f p with
    | error e =>
      rw [hf] at hx
      simp only [List.reverse_cons, List.mem_append, List.mem_reverse,
        List.mem_singleton] at hx
      rcases hx with h | h
      · exact Or.inl h
      · exact Or.inr (by rw [h])
    | ok page =>
      rw [hf] at hx
      cases hn : page.pageInfo.hasNextPage with
      | true =>
        simp only [hn, if_true] at hx
        rcases ih _ _ _ _ hx with h | h
        · rcases List.mem_cons.mp h with h' | h'
          · exact Or.inr (by rw [h'])
          · exact Or.inl h'
        · exact Or.inr h
      | false =>
        simp only [hn, Bool.false_eq_true, if_false, List.reverse_cons,
          List.mem_append, List.mem_reverse, List.mem_singleton] at hx
        rcases hx with h | h
        · exact Or.inl h
        · exact Or.inr (by rw [h])

/-- Processing pull-request search nodes never panics: it appends each
node's normalization in order. -/
theorem appendPrNodes_eq (l : List prSearchNodes) :
    ∀ res : List Issue,
      appendPrNodes res l = some (res ++ l.map normalizePrSearchNode) := by
  induction l with
  | nil => intro res; simp [appendPrNodes]
  | cons nd rest ih =>
    intro res
    simp [appendPrNodes, getPRorIssue, ih, normalizePrSearchNode]

/-- Processing an empty assignment node list is a no-op. -/
theorem appendAssignmentNodes_nil (res : List Issue) :
    appendAssignmentNodes res [] = some res := rfl

/-- Processing any non-empty assignment node list panics at its first
node: `getPRorIssue` is called with a nil `prResp`. -/
theorem appendAssignmentNodes_cons (res : List Issue)
    (nd : assignmentSearchNodes) (rest : List assignmentSearchNodes) :
    appendAssignmentNodes res (nd :: rest) = none := by
  simp [appendAssignmentNodes, getPRorIssue]

theorem cursorAtFrom_none {α : Type} (pages : List (searchPage α)) (t : Nat) :
    cursorAtFrom none pages t = cursorAt pages t := by
  unfold cursorAtFrom cursorAt
  cases (pages.take t).getLast? <;> simp

theorem cursorAtFrom_zero {α : Type} (c : Option String)
    (pages : List (searchPage α)) : cursorAtFrom c pages 0 = c := rfl

theorem cursorAtFrom_cons_succ {α : Type} (c : Option String)
    (pg : searchPage α) (rest : List (searchPage α)) (s : Nat) :
    cursorAtFrom c (pg :: rest) (s + 1) =
      cursorAtFrom (some pg.pageInfo.endCursor) rest s := by
  unfold cursorAtFrom
  rw [List.take_succ_cons]
  cases hx : rest.take s with
  | nil => simp [hx]
  | cons y ys =>
    rw [List.getLast?_cons_cons]
    cases h2 : (y :: ys).getLast? with
    | none => simp at h2
    | some z => rfl

/-- Fetching at round `t`'s cursor returns page `t` of the chain. -/
theorem queryChain_fetch {α : Type} (f : queryOracle α) :
    ∀ (pages : List (searchPage α)) (c : Option String),
      queryChain f c pages → ∀ t (h : t < pages.length),
        f (cursorAtFrom c pages t) = pages[t] := by
  intro pages
  induction pages with
  | nil => intro c _ t h; exact absurd h (by simp)
  | cons pg rest ih =>
    intro c hc t h
    obtain ⟨hf, _, hrest⟩ := hc
    cases t with
    | zero => simpa [cursorAtFrom_zero] using hf
    | succ s =>
      rw [cursorAtFrom_cons_succ]
      have := ih (some pg.pageInfo.endCursor) hrest s (by simpa using h)
      simpa using this

/-- Page `t` of a chain reports a next page exactly when it is not the
last page. -/
theorem queryChain_hasNext {α : Type} (f : queryOracle α) :
    ∀ (pages : List (searchPage α)) (c : Option String),
      queryChain f c pages → ∀ t (h : t < pages.length),
        (pages[t]).pageInfo.hasNextPage = decide (t + 1 < pages.length) := by
  intro pages
  induction pages with
  | nil => intro c _ t h; exact absurd h (by simp)
  | cons pg rest ih =>
    intro c hc t h
    obtain ⟨_, hn, hrest⟩ := hc
    cases t with
    | zero =>
      cases rest with
      | nil => simpa using hn
      | cons y ys =>
        have h2 : 0 + 1 < (y :: ys).length + 1 := by simp
        simpa [h2] using hn
    | succ s =>
      have := ih (some pg.pageInfo.endCursor) hrest s (by simpa using h)
      have h3 : decide (s + 1 < rest.length) = decide (s + 1 + 1 < rest.length + 1) := by
        simp
      simpa [h3] using this

theorem cursorAt_zero {α : Type} (pages : List (searchPage α)) :
    cursorAt pages 0 = none := rfl

theorem cursorAt_succ_of_lt {α : Type} (pages : List (searchPage α)) (t : Nat)
    (h : t < pages.length) :
    cursorAt pages (t + 1) = some ((pages[t]).pageInfo.endCursor) := by
  unfold cursorAt
  rw [List.take_succ, List.getElem?_eq_getElem h]
  rw [show (some pages[t]).toList = [pages[t]] from rfl]
  rw [List.getLast?_concat]
  rfl

theorem cursorAt_of_le {α : Type} (pages : List (searchPage α)) (t : Nat)
    (h : pages.length ≤ t) : cursorAt pages t = cursorAt pages pages.length := by
  unfold cursorAt
  rw [List.take_of_length_le h, List.take_of_length_le (le_refl _)]

theorem cursorAt_stable {α : Type} (pages : List (searchPage α)) (t : Nat)
    (h : pages.length ≤ t) : cursorAt pages (t + 1) = cursorAt pages t := by
  rw [cursorAt_of_le pages (t + 1) (le_trans h (Nat.le_succ t)), cursorAt_of_le pages t h]

theorem prPagesOut_take_of_le (pages : List (searchPage prSearchNodes)) (t : Nat)
    (h : pages.length ≤ t) : prPagesOut (pages.take t) = prPagesOut pages := by
  rw [List.take_of_length_le h]

theorem prPagesOut_take_succ (pages : List (searchPage prSearchNodes)) (t : Nat)
    (h : t < pages.length) :
    prPagesOut (pages.take (t + 1)) =
      prPagesOut (pages.take t) ++ (pages[t]).nodes.map normalizePrSearchNode := by
  unfold prPagesOut
  rw [List.take_succ, List.getElem?_eq_getElem h]
  rw [show (some pages[t]).toList = [pages[t]] from rfl]
  rw [List.map_append, List.flatten_append, List.map_append]
  simp only [List.map_cons, List.map_nil, List.flatten_cons, List.flatten_nil,
    List.append_nil]

theorem bool_not_decide_lt (a b : Nat) : (!decide (a < b)) = decide (b ≤ a) := by
  by_cases h : a < b
  · have h2 : ¬b ≤ a := by omega
    simp [h, h2]
  · have h2 : b ≤ a := by omega
    simp [h, h2]

/-- Running one pull-request-shaped block at round `t` of a chained
query advances the accumulated output, the flag and the cursor to their
round-`t+1` values. -/
theorem lhsStepPrQuery_run (f : queryOracle prSearchNodes)
    (pages : List (searchPage prSearchNodes)) (hchain : queryChain f none pages)
    (t : Nat) :
    lhsStepPrQuery (decide (pages.length ≤ t)) (prPagesOut (pages.take t))
      (cursorAt pages t) (f (cursorAt pages t)) =
      some (prPagesOut (pages.take (t + 1)), decide (pages.length ≤ t + 1),
        cursorAt pages (t + 1)) := by
  rcases Nat.lt_or_ge t pages.length with hlt | hge
  · have hflag : decide (pages.length ≤ t) = false :=
      decide_eq_false (Nat.not_le.mpr hlt)
    have hfetch : f (cursorAt pages t) = pages[t] := by
      have h2 := queryChain_fetch f pages none hchain t hlt
      rwa [cursorAtFrom_none] at h2
    unfold lhsStepPrQuery
    rw [hflag, if_neg (by simp)]
    rw [hfetch, appendPrNodes_eq]
    rw [queryChain_hasNext f pages none hchain t hlt]
    rw [bool_not_decide_lt]
    rw [← prPagesOut_take_succ pages t hlt, ← cursorAt_succ_of_lt pages t hlt]
  · have hflag : decide (pages.length ≤ t) = true := decide_eq_true hge
    unfold lhsStepPrQuery
    rw [hflag, if_pos rfl]
    rw [prPagesOut_take_of_le pages t hge,
      prPagesOut_take_of_le pages (t + 1) (by omega)]
    rw [cursorAt_stable pages t hge]
    rw [decide_eq_true (show pages.length ≤ t + 1 by omega)]

/-- Running the assignee block at round `t` of a chained query whose
pages carry no nodes advances the flag and cursor likewise, keeping the
empty output. -/
theorem lhsStepAssigneeQuery_run (f : queryOracle assignmentSearchNodes)
    (pages : List (searchPage assignmentSearchNodes))
    (hchain : queryChain f none pages) (hA0 : ∀ pg ∈ pages, pg.nodes = [])
    (t : Nat) :
    lhsStepAssigneeQuery (decide (pages.length ≤ t)) []
      (cursorAt pages t) (f (cursorAt pages t)) =
      some ([], decide (pages.length ≤ t + 1), cursorAt pages (t + 1)) := by
  rcases Nat.lt_or_ge t pages.length with hlt | hge
  · have hflag : decide (pages.length ≤ t) = false :=
      decide_eq_false (Nat.not_le.mpr hlt)
    have hfetch : f (cursorAt pages t) = pages[t] := by
      have h2 := queryChain_fetch f pages none hchain t hlt
      rwa [cursorAtFrom_none] at h2
    have hnodes : (pages[t]).nodes = [] := hA0 _ (pages.getElem_mem hlt)
    unfold lhsStepAssigneeQuery
    rw [hflag, if_neg (by simp)]
    rw [hfetch, hnodes, appendAssignmentNodes_nil]
    rw [queryChain_hasNext f pages none hchain t hlt]
    rw [bool_not_decide_lt]
    rw [← cursorAt_succ_of_lt pages t hlt]
  · have hflag : decide (pages.length ≤ t) = true := decide_eq_true hge
    unfold lhsStepAssigneeQuery
    rw [hflag, if_pos rfl]
    rw [cursorAt_stable pages t hge]
    rw [decide_eq_true (show pages.length ≤ t + 1 by omega)]

/-- As `lhsStepPrQuery_run` but for an arbitrary accumulated output:
the block never panics, and flag and cursor still advance. -/
theorem lhsStepPrQuery_cases (f : queryOracle prSearchNodes)
    (pages : List (searchPage prSearchNodes)) (hchain : queryChain f none pages)
    (t : Nat) (r : List Issue) :
    ∃ r', lhsStepPrQuery (decide (pages.length ≤ t)) r
      (cursorAt pages t) (f (cursorAt pages t)) =
      some (r', decide (pages.length ≤ t + 1), cursorAt pages (t + 1)) := by
  rcases Nat.lt_or_ge t pages.length with hlt | hge
  · have hflag : decide (pages.length ≤ t) = false :=
      decide_eq_false (Nat.not_le.mpr hlt)
    have hfetch : f (cursorAt pages t) = pages[t] := by
      have h2 := queryChain_fetch f pages none hchain t hlt
      rwa [cursorAtFrom_none] at h2
    refine ⟨r ++ (pages[t]).nodes.map normalizePrSearchNode, ?_⟩
    unfold lhsStepPrQuery
    rw [hflag, if_neg (by simp)]
    rw [hfetch, appendPrNodes_eq]
    rw [queryChain_hasNext f pages none hchain t hlt]
    rw [bool_not_decide_lt]
    rw [← cursorAt_succ_of_lt pages t hlt]
  · have hflag : decide (pages.length ≤ t) = true := decide_eq_true hge
    refine ⟨r, ?_⟩
    unfold lhsStepPrQuery
    rw [hflag, if_pos rfl]
    rw [cursorAt_stable pages t hge]
    rw [decide_eq_true (show pages.length ≤ t + 1 by omega)]

/-- As `lhsStepAssigneeQuery_run` but for arbitrary pages and output:
the block either panics or advances flag and cursor. -/
theorem lhsStepAssigneeQuery_cases (f : queryOracle assignmentSearchNodes)
    (pages : List (searchPage assignmentSearchNodes))
    (hchain : queryChain f none pages) (t : Nat) (r : List Issue) :
    lhsStepAssigneeQuery (decide (pages.length ≤ t)) r
        (cursorAt pages t) (f (cursorAt pages t)) = none ∨
      ∃ r', lhsStepAssigneeQuery (decide (pages.length ≤ t)) r
        (cursorAt pages t) (f (cursorAt pages t)) =
        some (r', decide (pages.length ≤ t + 1), cursorAt pages (t + 1)) := by
  rcases Nat.lt_or_ge t pages.length with hlt | hge
  · have hflag : decide (pages.length ≤ t) = false :=
      decide_eq_false (Nat.not_le.mpr hlt)
    have hfetch : f (cursorAt pages t) = pages[t] := by
      have h2 := queryChain_fetch f pages none hchain t hlt
      rwa [cursorAtFrom_none] at h2
    cases hnodes : (pages[t]).nodes with
    | cons nd rest =>
      refine Or.inl ?_
      unfold lhsStepAssigneeQuery
      rw [hflag, if_neg (by simp)]
      rw [hfetch, hnodes, appendAssignmentNodes_cons]
    | nil =>
      refine Or.inr ⟨r, ?_⟩
      unfold lhsStepAssigneeQuery
      rw [hflag, if_neg (by simp)]
      rw [hfetch, hnodes, appendAssignmentNodes_nil]
      rw [queryChain_hasNext f pages none hchain t hlt]
      rw [bool_not_decide_lt]
      rw [← cursorAt_succ_of_lt pages t hlt]
  · have hflag : decide (pages.length ≤ t) = true := decide_eq_true hge
    refine Or.inr ⟨r, ?_⟩
    unfold lhsStepAssigneeQuery
    rw [hflag, if_pos rfl]
    rw [cursorAt_stable pages t hge]
    rw [decide_eq_true (show pages.length ≤ t + 1 by omega)]

theorem lhsFlags_break_false (lR lA lO t : Nat)
    (ht : t < max (max lR lA) lO) :
    (decide (lR ≤ t) && decide (lA ≤ t) && decide (lO ≤ t)) = false := by
  have h3 : ¬(lR ≤ t) ∨ ¬(lA ≤ t) ∨ ¬(lO ≤ t) := by
    by_contra hc
    push_neg at hc
    obtain ⟨h1, h2, h3⟩ := hc
    have h4 : max (max lR lA) lO ≤ t := max_le (max_le h1 h2) h3
    omega
  rcases h3 with h | h | h <;> simp [h]

/-- Full-run characterization of the combined three-query loop over
chained per-query oracles (assignment pages carrying no nodes): from
round `t` it performs exactly one round trip per remaining round up to
the longest query's page count, issuing at round `s` the three frozen
filters with each query's round-`s` cursor, and returns each
pull-request-shaped query's own pages' nodes, normalized, in order. -/
theorem lhsLoop_run (fPR : queryOracle prSearchNodes)
    (fA : queryOracle assignmentSearchNodes) (fO : queryOracle prSearchNodes)
    (pagesR : List (searchPage prSearchNodes))
    (pagesA : List (searchPage assignmentSearchNodes))
    (pagesO : List (searchPage prSearchNodes))
    (hR : queryChain fPR none pagesR) (hA : queryChain fA none pagesA)
    (hO : queryChain fO none pagesO)
    (hA0 : ∀ pg ∈ pagesA, pg.nodes = [])
    (qO qR qA : String) :
    ∀ (n t : Nat) (tr : List lhsParams),
      t ≤ max (max pagesR.length pagesA.length) pagesO.length →
      max (max pagesR.length pagesA.length) pagesO.length - t < n →
      lhsLoop (combineFetch fPR fA fO) n
          (lhsReqAt qO qR qA pagesR pagesA pagesO t)
          (decide (pagesR.length ≤ t)) (decide (pagesA.length ≤ t))
          (decide (pagesO.length ≤ t))
          (prPagesOut (pagesR.take t)) [] (prPagesOut (pagesO.take t)) tr =
        (tr.reverse ++
            (List.range' t
                (max (max pagesR.length pagesA.length) pagesO.length - t)).map
              (lhsReqAt qO qR qA pagesR pagesA pagesO),
         .ret (prPagesOut pagesR) [] (prPagesOut pagesO) none) := by
  intro n
  induction n with
  | zero => intro t tr _ hn; omega
  | succ n ih =>
    intro t tr ht hn
    rw [lhsLoop]
    rcases Nat.lt_or_ge t (max (max pagesR.length pagesA.length) pagesO.length)
      with hlt | hge
    · have hfe : combineFetch fPR fA fO (lhsReqAt qO qR qA pagesR pagesA pagesO t) =
          Except.ok ⟨fPR (cursorAt pagesR t), fA (cursorAt pagesA t),
            fO (cursorAt pagesO t)⟩ := rfl
      have hproc : lhsProcess (lhsReqAt qO qR qA pagesR pagesA pagesO t)
          (decide (pagesR.length ≤ t)) (decide (pagesA.length ≤ t))
          (decide (pagesO.length ≤ t))
          (prPagesOut (pagesR.take t)) [] (prPagesOut (pagesO.take t))
          ⟨fPR (cursorAt pagesR t), fA (cursorAt pagesA t),
            fO (cursorAt pagesO t)⟩ =
          some (lhsReqAt qO qR qA pagesR pagesA pagesO (t + 1),
            decide (pagesR.length ≤ t + 1), decide (pagesA.length ≤ t + 1),
            decide (pagesO.length ≤ t + 1),
            prPagesOut (pagesR.take (t + 1)), [],
            prPagesOut (pagesO.take (t + 1))) := by
        simp only [lhsProcess, lhsReqAt]
        rw [lhsStepPrQuery_run fPR pagesR hR t]
        rw [lhsStepAssigneeQuery_run fA pagesA hA hA0 t]
        rw [lhsStepPrQuery_run fO pagesO hO t]
      simp only [lhsFlags_break_false _ _ _ _ hlt, Bool.false_eq_true, if_false,
        hfe, hproc]
      rw [ih (t + 1) (lhsReqAt qO qR qA pagesR pagesA pagesO t :: tr)
        (by omega) (by omega)]
      rw [show max (max pagesR.length pagesA.length) pagesO.length - t =
        (max (max pagesR.length pagesA.length) pagesO.length - (t + 1)) + 1
        from by omega]
      rw [List.range'_succ]
      simp [List.append_assoc]
    · have h1 : pagesR.length ≤ t :=
        le_trans (le_trans (le_max_left _ _) (le_max_left _ _)) hge
      have h2 : pagesA.length ≤ t :=
        le_trans (le_trans (le_max_right _ _) (le_max_left _ _)) hge
      have h3 : pagesO.length ≤ t := le_trans (le_max_right _ _) hge
      rw [decide_eq_true h1, decide_eq_true h2, decide_eq_true h3]
      rw [if_pos (show (true && true && true) = true from rfl)]
      rw [prPagesOut_take_of_le pagesR t h1, prPagesOut_take_of_le pagesO t h3]
      rw [show max (max pagesR.length pagesA.length) pagesO.length - t = 0
        from by omega]
      simp

/-- Whatever `lhsProcess` returns keeps the three filter expressions of
the incoming params untouched. -/
theorem lhsProcess_args (p : lhsParams) (b1 b2 b3 : Bool) (rPR rA rO : List Issue)
    (mq : mainQueryResponse) (p' : lhsParams) (f1 f2 f3 : Bool)
    (r1 r2 r3 : List Issue)
    (h : lhsProcess p b1 b2 b3 rPR rA rO mq = some (p', f1, f2, f3, r1, r2, r3)) :
    p'.prOpenQueryArg = p.prOpenQueryArg ∧
      p'.prReviewQueryArg = p.prReviewQueryArg ∧
      p'.assigneeQueryArg = p.assigneeQueryArg := by
  unfold lhsProcess at h
  cases h1 : lhsStepPrQuery b1 rPR p.reviewCursor mq.pullRequest with
  | none => rw [h1] at h; simp at h
  | some s1 =>
    obtain ⟨x1, y1, z1⟩ := s1
    rw [h1] at h
    cases h2 : lhsStepAssigneeQuery b2 rA p.assignmentsCursor mq.assignee with
    | none => rw [h2] at h; simp at h
    | some s2 =>
      obtain ⟨x2, y2, z2⟩ := s2
      rw [h2] at h
      cases h3 : lhsStepPrQuery b3 rO p.openPrsCursor mq.openPullRequest with
      | none => rw [h3] at h; simp at h
      | some s3 =>
        obtain ⟨x3, y3, z3⟩ := s3
        rw [h3] at h
        simp only [Option.some.injEq, Prod.mk.injEq] at h
        rw [← h.1]
        exact ⟨rfl, rfl, rfl⟩

/-- The combined loop never touches the filter expressions: every
request of the trace carries the three filters of the initial params
(or was already in the accumulated trace). -/
theorem lhsLoop_queryArgs (F : lhsRoundTrip) :
    ∀ (n : Nat) (p : lhsParams) (b1 b2 b3 : Bool) (rPR rA rO : List Issue)
      (tr : List lhsParams) (x : lhsParams),
      x ∈ (lhsLoop F n p b1 b2 b3 rPR rA rO tr).1 →
      x ∈ tr ∨ (x.prOpenQueryArg = p.prOpenQueryArg ∧
        x.prReviewQueryArg = p.prReviewQueryArg ∧
        x.assigneeQueryArg = p.assigneeQueryArg) := by
  intro n
  induction n with
  | zero =>
    intro p b1 b2 b3 rPR rA rO tr x hx
    simp only [lhsLoop, List.mem_reverse] at hx
    exact Or.inl hx
  | succ n ih =>
    intro p b1 b2 b3 rPR rA rO tr x hx
    rw [lhsLoop] at hx
    split at hx
    · simp only [List.mem_reverse] at hx
      exact Or.inl hx
    · cases hf : F p with
      | error e =>
        rw [hf] at hx
        simp only [List.reverse_cons, List.mem_append, List.mem_reverse,
          List.mem_singleton] at hx
        rcases hx with h | h
        · exact Or.inl h
        · exact Or.inr (by rw [h]; exact ⟨rfl, rfl, rfl⟩)
      | ok mq =>
        cases hpr : lhsProcess p b1 b2 b3 rPR rA rO mq with
        | none =>
          simp only [hf, hpr, List.reverse_cons, List.mem_append, List.mem_reverse,
            List.mem_singleton] at hx
          rcases hx with h | h
          · exact Or.inl h
          · exact Or.inr (by rw [h]; exact ⟨rfl, rfl, rfl⟩)
        | some st =>
          obtain ⟨p', f1, f2, f3, r1, r2, r3⟩ := st
          simp only [hf, hpr] at hx
          obtain ⟨ha1, ha2, ha3⟩ := lhsProcess_args p b1 b2 b3 rPR rA rO mq
            p' f1 f2 f3 r1 r2 r3 hpr
          rcases ih p' f1 f2 f3 r1 r2 r3 (p :: tr) x hx with h | h
          · rcases List.mem_cons.mp h with h' | h'
            · exact Or.inr (by rw [h']; exact ⟨rfl, rfl, rfl⟩)
            · exact Or.inl h'
          · exact Or.inr ⟨h.1.trans ha1, h.2.1.trans ha2, h.2.2.trans ha3⟩

/-- If the combined loop returns with an error, all three result lists
of the return value are nil and the error is one produced by the
round-trip oracle. -/
theorem lhsLoop_error (F : lhsRoundTrip) :
    ∀ (n : Nat) (p : lhsParams) (b1 b2 b3 : Bool) (rPR rA rO : List Issue)
      (tr tr2 : List lhsParams) (a b c : List Issue) (e : String),
      lhsLoop F n p b1 b2 b3 rPR rA rO tr = (tr2, .ret a b c (some e)) →
      a = [] ∧ b = [] ∧ c = [] ∧ ∃ p', F p' = .error e := by
  intro n
  induction n with
  | zero =>
    intro p b1 b2 b3 rPR rA rO tr tr2 a b c e h
    simp [lhsLoop] at h
  | succ n ih =>
    intro p b1 b2 b3 rPR rA rO tr tr2 a b c e h
    rw [lhsLoop] at h
    split at h
    · simp only [Prod.mk.injEq, lhsOutcome.ret.injEq] at h
      exact absurd h.2.2.2.2 (by simp)
    · cases hf : F p with
      | error e' =>
        rw [hf] at h
        simp only [Prod.mk.injEq, lhsOutcome.ret.injEq, Option.some.injEq] at h
        exact ⟨h.2.1.symm, h.2.2.1.symm, h.2.2.2.1.symm, p, by rw [hf, h.2.2.2.2]⟩
      | ok mq =>
        cases hpr : lhsProcess p b1 b2 b3 rPR rA rO mq with
        | none =>
          simp only [hf, hpr, Prod.mk.injEq] at h
          exact absurd h.2 (by simp)
        | some st =>
          obtain ⟨p', f1, f2, f3, r1, r2, r3⟩ := st
          simp only [hf, hpr] at h
          exact ih p' f1 f2 f3 r1 r2 r3 (p :: tr) tr2 a b c e h

/-- Termination of the combined loop over chained per-query oracles
with arbitrary node contents: with fuel beyond the longest query's page
count the loop never runs out of fuel (it returns or panics), and it
issues at most one round trip per page of the longest query. -/
theorem lhsLoop_no_fuelOut (fPR : queryOracle prSearchNodes)
    (fA : queryOracle assignmentSearchNodes) (fO : queryOracle prSearchNodes)
    (pagesR : List (searchPage prSearchNodes))
    (pagesA : List (searchPage assignmentSearchNodes))
    (pagesO : List (searchPage prSearchNodes))
    (hR : queryChain fPR none pagesR) (hA : queryChain fA none pagesA)
    (hO : queryChain fO none pagesO) (qO qR qA : String) :
    ∀ (n t : Nat) (tr tr2 : List lhsParams) (rPR rA rO : List Issue)
      (out : lhsOutcome),
      t ≤ max (max pagesR.length pagesA.length) pagesO.length →
      max (max pagesR.length pagesA.length) pagesO.length - t < n →
      lhsLoop (combineFetch fPR fA fO) n
          (lhsReqAt qO qR qA pagesR pagesA pagesO t)
          (decide (pagesR.length ≤ t)) (decide (pagesA.length ≤ t))
          (decide (pagesO.length ≤ t)) rPR rA rO tr = (tr2, out) →
      out ≠ .fuelOut ∧
        tr2.length ≤ tr.length +
          (max (max pagesR.length pagesA.length) pagesO.length - t) := by
  intro n
  induction n with
  | zero => intro t tr tr2 rPR rA rO out ht hn; omega
  | succ n ih =>
    intro t tr tr2 rPR rA rO out ht hn heq
    rw [lhsLoop] at heq
    rcases Nat.lt_or_ge t (max (max pagesR.length pagesA.length) pagesO.length)
      with hlt | hge
    · have hfe : combineFetch fPR fA fO (lhsReqAt qO qR qA pagesR pagesA pagesO t) =
          Except.ok ⟨fPR (cursorAt pagesR t), fA (cursorAt pagesA t),
            fO (cursorAt pagesO t)⟩ := rfl
      obtain ⟨rR', hstepR⟩ := lhsStepPrQuery_cases fPR pagesR hR t rPR
      obtain ⟨rO', hstepO⟩ := lhsStepPrQuery_cases fO pagesO hO t rO
      rcases lhsStepAssigneeQuery_cases fA pagesA hA t rA with hnone | ⟨rA', hstepA⟩
      · have hproc : lhsProcess (lhsReqAt qO qR qA pagesR pagesA pagesO t)
            (decide (pagesR.length ≤ t)) (decide (pagesA.length ≤ t))
            (decide (pagesO.length ≤ t)) rPR rA rO
            ⟨fPR (cursorAt pagesR t), fA (cursorAt pagesA t),
              fO (cursorAt pagesO t)⟩ = none := by
          simp only [lhsProcess, lhsReqAt]
          rw [hstepR, hnone]
        simp only [lhsFlags_break_false _ _ _ _ hlt, Bool.false_eq_true, if_false,
          hfe, hproc, Prod.mk.injEq] at heq
        refine ⟨?_, ?_⟩
        · rw [← heq.2]; intro hcon; exact lhsOutcome.noConfusion hcon
        · rw [← heq.1]
          simp only [List.length_reverse, List.length_cons]
          omega
      · have hproc : lhsProcess (lhsReqAt qO qR qA pagesR pagesA pagesO t)
            (decide (pagesR.length ≤ t)) (decide (pagesA.length ≤ t))
            (decide (pagesO.length ≤ t)) rPR rA rO
            ⟨fPR (cursorAt pagesR t), fA (cursorAt pagesA t),
              fO (cursorAt pagesO t)⟩ =
            some (lhsReqAt qO qR qA pagesR pagesA pagesO (t + 1),
              decide (pagesR.length ≤ t + 1), decide (pagesA.length ≤ t + 1),
              decide (pagesO.length ≤ t + 1), rR', rA', rO') := by
          simp only [lhsProcess, lhsReqAt]
          rw [hstepR, hstepA, hstepO]
        simp only [lhsFlags_break_false _ _ _ _ hlt, Bool.false_eq_true, if_false,
          hfe, hproc] at heq
        have hrec := ih (t + 1) (lhsReqAt qO qR qA pagesR pagesA pagesO t :: tr)
          tr2 rR' rA' rO' out (by omega) (by omega) heq
        refine ⟨hrec.1, ?_⟩
        have h2 := hrec.2
        simp only [List.length_cons] at h2
        omega
    · have h1 : pagesR.length ≤ t :=
        le_trans (le_trans (le_max_left _ _) (le_max_left _ _)) hge
      have h2 : pagesA.length ≤ t :=
        le_trans (le_trans (le_max_right _ _) (le_max_left _ _)) hge
      have h3 : pagesO.length ≤ t := le_trans (le_max_right _ _) hge
      rw [decide_eq_true h1, decide_eq_true h2, decide_eq_true h3] at heq
      rw [if_pos (show (true && true && true) = true from rfl)] at heq
      simp only [Prod.mk.injEq] at heq
      refine ⟨?_, ?_⟩
      · rw [← heq.2]; intro hcon; exact lhsOutcome.noConfusion hcon
      · rw [← heq.1]
        simp only [List.length_reverse]
        omega

theorem leadsWith_append_space (pat : List Char) (hsp : ' ' ∉ pat) :
    ∀ (x y : List Char), leadsWith pat (x ++ ' ' :: y) = leadsWith pat x := by
  induction pat with
  | nil => intro x y; rfl
  | cons p ps ih =>
    intro x y
    cases x with
    | nil =>
      have hp : p ≠ ' ' := fun hc => hsp (hc ▸ List.mem_cons_self p ps)
      simp [leadsWith, hp]
    | cons c xs =>
      have hsp' : ' ' ∉ ps := fun hc => hsp (List.mem_cons_of_mem p hc)
      simp [leadsWith, ih hsp' xs y]

theorem countOcc_append_space (pat : List Char) (hne : pat ≠ []) (hsp : ' ' ∉ pat) :
    ∀ (x y : List Char), countOcc (x ++ ' ' :: y) pat = countOcc x pat + countOcc y pat := by
  intro x
  induction x with
  | nil =>
    intro y
    cases pat with
    | nil => exact absurd rfl hne
    | cons p ps =>
      have hp : p ≠ ' ' := fun hc => hsp (hc ▸ List.mem_cons_self p ps)
      simp [countOcc, leadsWith, hp]
  | cons c xs ih =>
    intro y
    rw [List.cons_append]
    rw [show countOcc (c :: (xs ++ ' ' :: y)) pat =
      (if leadsWith pat (c :: (xs ++ ' ' :: y)) then 1 else 0) +
        countOcc (xs ++ ' ' :: y) pat from rfl]
    rw [show countOcc (c :: xs) pat =
      (if leadsWith pat (c :: xs) then 1 else 0) + countOcc xs pat from rfl]
    rw [show leadsWith pat (c :: (xs ++ ' ' :: y)) = leadsWith pat (c :: xs) from by
      have h1 := leadsWith_append_space pat hsp (c :: xs) y
      rwa [List.cons_append] at h1]
    rw [ih y]
    omega

/-- An organization-scoped filter `org:<org> <base>` holds the
organization clause exactly once, provided the clause occurs exactly
once in `org:<org>` and not at all in the base filter. -/
theorem countOccStr_orgScoped (org base : String)
    (h1 : countOccStr ("org:" ++ org) "org:" = 1)
    (h2 : countOccStr base "org:" = 0) :
    countOccStr ("org:" ++ org ++ " " ++ base) "org:" = 1 := by
  unfold countOccStr at *
  have hd : ("org:" ++ org ++ " " ++ base).data =
      ("org:" ++ org).data ++ ' ' :: base.data := by
    rw [String.data_append, String.data_append, List.append_assoc]
    rfl
  rw [hd, countOcc_append_space ("org:".data) (by decide) (by decide), h1, h2]

/-- The initial params of `GetLHSData` are the round-0 request of any
three chained queries: its three cursors are the typed nils. -/
theorem lhsInitParams_reqAt (u org : String)
    (pagesR : List (searchPage prSearchNodes))
    (pagesA : List (searchPage assignmentSearchNodes))
    (pagesO : List (searchPage prSearchNodes)) :
    lhsInitParams u org =
      lhsReqAt (lhsInitParams u org).prOpenQueryArg
        (lhsInitParams u org).prReviewQueryArg
        (lhsInitParams u org).assigneeQueryArg pagesR pagesA pagesO 0 := by
  unfold lhsInitParams lhsReqAt
  by_cases h : org = "" <;> simp [h, cursorAt]

/-- Full-run characterization of `GetLHSData` over three chained
per-query oracles whose assignment pages carry no nodes: the trace is
one request per round `0 .. maxLen-1` built from the frozen filters and
the per-round cursors, and each pull-request-shaped query's output is
exactly its own pages' nodes, normalized, in page order; the assignment
output is empty, and no error is returned. -/
theorem GetLHSData_run (u org : String) (fPR : queryOracle prSearchNodes)
    (fA : queryOracle assignmentSearchNodes) (fO : queryOracle prSearchNodes)
    (pagesR : List (searchPage prSearchNodes))
    (pagesA : List (searchPage assignmentSearchNodes))
    (pagesO : List (searchPage prSearchNodes))
    (hR : queryChain fPR none pagesR) (hA : queryChain fA none pagesA)
    (hO : queryChain fO none pagesO)
    (hRne : pagesR ≠ []) (hAne : pagesA ≠ []) (hOne : pagesO ≠ [])
    (hA0 : ∀ pg ∈ pagesA, pg.nodes = []) (n : Nat)
    (hn : max (max pagesR.length pagesA.length) pagesO.length < n) :
    GetLHSData u org (combineFetch fPR fA fO) n =
      ((List.range' 0 (max (max pagesR.length pagesA.length) pagesO.length)).map
          (lhsReqAt (lhsInitParams u org).prOpenQueryArg
            (lhsInitParams u org).prReviewQueryArg
            (lhsInitParams u org).assigneeQueryArg pagesR pagesA pagesO),
       .ret (prPagesOut pagesR) [] (prPagesOut pagesO) none) := by
  have hrun := lhsLoop_run fPR fA fO pagesR pagesA pagesO hR hA hO hA0
    (lhsInitParams u org).prOpenQueryArg (lhsInitParams u org).prReviewQueryArg
    (lhsInitParams u org).assigneeQueryArg n 0 [] (Nat.zero_le _) (by omega)
  have e1 : decide (pagesR.length ≤ 0) = false :=
    decide_eq_false (by have := List.length_pos.mpr hRne; omega)
  have e2 : decide (pagesA.length ≤ 0) = false :=
    decide_eq_false (by have := List.length_pos.mpr hAne; omega)
  have e3 : decide (pagesO.length ≤ 0) = false :=
    decide_eq_false (by have := List.length_pos.mpr hOne; omega)
  rw [e1, e2, e3] at hrun
  rw [show prPagesOut (List.take 0 pagesR) = ([] : List Issue) from rfl] at hrun
  rw [show prPagesOut (List.take 0 pagesO) = ([] : List Issue) from rfl] at hrun
  unfold GetLHSData
  rw [lhsInitParams_reqAt u org pagesR pagesA pagesO]
  simpa using hrun

/-- Full-run characterization of `GetYourPrs` over a chained page
sequence. -/
theorem GetYourPrs_run (u org : String) (f : searchRoundTrip prSearchNodes)
    (pages : List (searchPage prSearchNodes))
    (hchain : searchChain f (prsFilter u org) none pages) (hne : pages ≠ [])
    (n : Nat) (hn : pages.length ≤ n) :
    GetYourPrs u org f n =
      ((⟨prsFilter u org, none⟩ : singleParams) ::
          pages.dropLast.map
            (fun pg => (⟨prsFilter u org, some pg.pageInfo.endCursor⟩ : singleParams)),
       .ret (((pages.map (fun pg => pg.nodes)).flatten).map normalizePrSearchNode)
         none) := by
  have h := searchLoop_run normalizePrSearchNode f (prsFilter u org) pages none
    n [] [] hchain hne hn
  unfold GetYourPrs
  simpa using h

/-- Full-run characterization of `GetYourAssignment` over a chained
page sequence. -/
theorem GetYourAssignment_run (u org : String)
    (f : searchRoundTrip assignmentSearchNodes)
    (pages : List (searchPage assignmentSearchNodes))
    (hchain : searchChain f (assignmentFilter u org) none pages)
    (hne : pages ≠ []) (n : Nat) (hn : pages.length ≤ n) :
    GetYourAssignment u org f n =
      ((⟨assignmentFilter u org, none⟩ : singleParams) ::
          pages.dropLast.map
            (fun pg => (⟨assignmentFilter u org, some pg.pageInfo.endCursor⟩ : singleParams)),
       .ret (((pages.map (fun pg => pg.nodes)).flatten).map normalizeAssignmentNode)
         none) := by
  have h := searchLoop_run normalizeAssignmentNode f (assignmentFilter u org)
    pages none n [] [] hchain hne hn
  unfold GetYourAssignment
  simpa using h

/-- Claim C2: for every raw node carrying both an issue variant and a
pull-request variant, the normalizer selects the variant by identifier:
with a non-zero issue number and zero pull-request number the produced
WorkItem's fields (number, repository URL, canonical URL, title, author
login, creation and update timestamps) equal the issue variant's
fields; with the inverse they equal the pull-request variant's. -/
theorem c2_normalizer_selects_variant (nd : assignmentSearchNodes) :
    (nd.issue.number ≠ 0 → nd.pullRequest.number = 0 →
      (normalizeAssignmentNode nd).number = nd.issue.number ∧
      (normalizeAssignmentNode nd).repositoryURL = nd.issue.repository.url ∧
      (normalizeAssignmentNode nd).htmlURL = nd.issue.url ∧
      (normalizeAssignmentNode nd).title = nd.issue.title ∧
      (normalizeAssignmentNode nd).userLogin = nd.issue.author.login ∧
      (normalizeAssignmentNode nd).createdAt = nd.issue.createdAt ∧
      (normalizeAssignmentNode nd).updatedAt = nd.issue.updatedAt) ∧
    (nd.pullRequest.number ≠ 0 → nd.issue.number = 0 →
      (normalizeAssignmentNode nd).number = nd.pullRequest.number ∧
      (normalizeAssignmentNode nd).repositoryURL = nd.pullRequest.repository.url ∧
      (normalizeAssignmentNode nd).htmlURL = nd.pullRequest.url ∧
      (normalizeAssignmentNode nd).title = nd.pullRequest.title ∧
      (normalizeAssignmentNode nd).userLogin = nd.pullRequest.author.login ∧
      (normalizeAssignmentNode nd).createdAt = nd.pullRequest.createdAt ∧
      (normalizeAssignmentNode nd).updatedAt = nd.pullRequest.updatedAt) := by
  constructor
  · intro h1 _
    simp [normalizeAssignmentNode, issueOfAssignmentVariant, h1]
  · intro _ h2
    simp [normalizeAssignmentNode, issueOfAssignmentVariant, h2]

/-- Witness for C2 at two concrete nodes: one with a populated issue
variant, one with a populated pull-request variant. -/
theorem c2_normalizer_selects_variant_witness :
    (normalizeAssignmentNode (mkAssignmentIssueNode 5)).number = 5 ∧
    (normalizeAssignmentNode (mkAssignmentPrNode 7)).number = 7 := by
  refine ⟨?_, ?_⟩
  · exact ((c2_normalizer_selects_variant (mkAssignmentIssueNode 5)).1
      (by decide) (by decide)).1
  · exact ((c2_normalizer_selects_variant (mkAssignmentPrNode 7)).2
      (by decide) (by decide)).1

/-- Claim C3: `getPRorIssue` is invoked with a nil `prResp` for every
assignment node of `GetLHSData` and dereferences it before inspecting
`assignmentResp`, so the panic branch is taken for every assignment
node (normalization via `getPRorIssue` never produces a WorkItem), and
the panic is reached whenever the first round's Assignee result set is
non-empty. -/
theorem c3_assignment_normalization_panics :
    (∀ nd : assignmentSearchNodes, getPRorIssue none (some nd) = none) ∧
    (∀ (u org : String) (F : lhsRoundTrip) (n : Nat) (mq : mainQueryResponse),
      F (lhsInitParams u org) = .ok mq → mq.assignee.nodes ≠ [] →
      (GetLHSData u org F (n + 1)).2 = .panicked) := by
  constructor
  · intro nd; rfl
  · intro u org F n mq hF hne
    have hstep1 : lhsStepPrQuery false [] (lhsInitParams u org).reviewCursor
        mq.pullRequest =
        some ([] ++ mq.pullRequest.nodes.map normalizePrSearchNode,
          !mq.pullRequest.pageInfo.hasNextPage,
          some mq.pullRequest.pageInfo.endCursor) := by
      unfold lhsStepPrQuery
      rw [if_neg (by simp), appendPrNodes_eq]
    have hstep2 : lhsStepAssigneeQuery false []
        (lhsInitParams u org).assignmentsCursor mq.assignee = none := by
      unfold lhsStepAssigneeQuery
      rw [if_neg (by simp)]
      cases hnodes : mq.assignee.nodes with
      | nil => exact absurd hnodes hne
      | cons nd rest => rw [appendAssignmentNodes_cons]
    have hproc : lhsProcess (lhsInitParams u org) false false false [] [] []
        mq = none := by
      unfold lhsProcess
      rw [hstep1, hstep2]
    unfold GetLHSData
    rw [lhsLoop, if_neg (by simp)]
    simp only [hF, hproc]

/-- Witness for C3: a concrete run whose assignee page has one node
panics on its first round. -/
theorem c3_assignment_normalization_panics_witness :
    getPRorIssue none (some (mkAssignmentIssueNode 7)) = none ∧
    (GetLHSData "alice" "" (combineFetch c1FetchR c7FetchA c1FetchO) 2).2 =
      .panicked := by
  refine ⟨c3_assignment_normalization_panics.1 (mkAssignmentIssueNode 7), ?_⟩
  exact c3_assignment_normalization_panics.2 "alice" ""
    (combineFetch c1FetchR c7FetchA c1FetchO) 1 _ rfl (by decide)

/-- Claim C6 (the code's actual behavior at the failing input): a node
with zero identifiers on both variants is not rejected — the
aggregation call succeeds and silently emits a zero-numbered WorkItem
built from the PullRequest variant's fields. -/
theorem c6_zero_identifier_silently_emitted :
    GetYourAssignment "alice" "" c6Fetch 1 =
      ([⟨assignmentFilter "alice" "", none⟩],
       .ret [⟨0, "zrepo", "ghost", 0, 0, "gau", "zurl"⟩] none) ∧
    normalizeAssignmentNode c6Node = ⟨0, "zrepo", "ghost", 0, 0, "gau", "zurl"⟩ := by
  exact ⟨by decide, by decide⟩

/-- Claim C9: the worked example — page 1 with two nodes and
hasNextPage true at cursor c1, page 2 with one node and no next page —
yields the three normalized WorkItems in page order in exactly two
round trips (the second carrying cursor c1). -/
theorem c9_example_scenario :
    GetYourAssignment "alice" "" c9Fetch 5 =
      ([⟨assignmentFilter "alice" "", none⟩,
        ⟨assignmentFilter "alice" "", some "c1"⟩],
       .ret [normalizeAssignmentNode (mkAssignmentIssueNode 1),
             normalizeAssignmentNode (mkAssignmentIssueNode 2),
             normalizeAssignmentNode (mkAssignmentIssueNode 3)] none) ∧
    (GetYourAssignment "alice" "" c9Fetch 5).1.length = 2 := by
  exact ⟨by decide, by decide⟩

/-- Counterexample to C1 as stated: the review query's very first page
reports hasNextPage = false, yet the second round trip of the same
`GetLHSData` call still carries that query's cursor parameter (frozen
at its end cursor "r1") — the exhausted query is re-issued as part of
the combined request rather than omitted. -/
theorem c1_exhausted_cursor_still_sent :
    (c1FetchR none).pageInfo.hasNextPage = false ∧
    ((GetLHSData "alice" "" (combineFetch c1FetchR c1FetchA c1FetchO) 3).1.map
        (fun p => p.reviewCursor)) = [none, some "r1"] := by
  exact ⟨by decide, by decide⟩

/-- Claim C1 amended: once a query's page reports hasNextPage = false,
subsequent round trips of the same aggregation call still include that
query's cursor parameter — frozen at its final end cursor, the combined
query being re-issued whole — but the exhausted query's results are not
re-collected: each query's final output is exactly its own pages'
nodes, so its output length (the total node count of its own pages) is
unchanged by all subsequent round trips. -/
theorem c1_exhausted_query_frozen (fPR : queryOracle prSearchNodes)
    (fA : queryOracle assignmentSearchNodes) (fO : queryOracle prSearchNodes)
    (pagesR : List (searchPage prSearchNodes))
    (pagesA : List (searchPage assignmentSearchNodes))
    (pagesO : List (searchPage prSearchNodes))
    (hR : queryChain fPR none pagesR) (hA : queryChain fA none pagesA)
    (hO : queryChain fO none pagesO)
    (hRne : pagesR ≠ []) (hAne : pagesA ≠ []) (hOne : pagesO ≠ [])
    (hA0 : ∀ pg ∈ pagesA, pg.nodes = []) (u org : String) (n : Nat)
    (hn : max (max pagesR.length pagesA.length) pagesO.length < n) :
    GetLHSData u org (combineFetch fPR fA fO) n =
      ((List.range' 0 (max (max pagesR.length pagesA.length) pagesO.length)).map
          (lhsReqAt (lhsInitParams u org).prOpenQueryArg
            (lhsInitParams u org).prReviewQueryArg
            (lhsInitParams u org).assigneeQueryArg pagesR pagesA pagesO),
       .ret (prPagesOut pagesR) [] (prPagesOut pagesO) none) ∧
    (∀ t, pagesR.length ≤ t →
      (lhsReqAt (lhsInitParams u org).prOpenQueryArg
        (lhsInitParams u org).prReviewQueryArg
        (lhsInitParams u org).assigneeQueryArg pagesR pagesA pagesO t).reviewCursor =
        cursorAt pagesR pagesR.length) ∧
    (prPagesOut pagesR).length = (pagesR.map (fun pg => pg.nodes.length)).sum := by
  refine ⟨GetLHSData_run u org fPR fA fO pagesR pagesA pagesO hR hA hO
    hRne hAne hOne hA0 n hn, ?_, ?_⟩
  · intro t htl
    exact cursorAt_of_le pagesR t htl
  · unfold prPagesOut
    simp only [List.length_map, List.length_flatten, List.map_map]
    rfl

/-- Witness for the amended C1 at the concrete fixture run: review
exhausts on round 0, open PRs need two rounds, and the full run is as
characterized. -/
theorem c1_exhausted_query_frozen_witness :
    GetLHSData "alice" "" (combineFetch c1FetchR c1FetchA c1FetchO) 3 =
      ((List.range' 0 2).map
          (lhsReqAt (lhsInitParams "alice" "").prOpenQueryArg
            (lhsInitParams "alice" "").prReviewQueryArg
            (lhsInitParams "alice" "").assigneeQueryArg
            [c1PageR1] [c1PageA1] [c1PageO1, c1PageO2]),
       .ret (prPagesOut [c1PageR1]) [] (prPagesOut [c1PageO1, c1PageO2]) none) := by
  have h := c1_exhausted_query_frozen c1FetchR c1FetchA c1FetchO
    [c1PageR1] [c1PageA1] [c1PageO1, c1PageO2]
    ⟨rfl, by decide, trivial⟩ ⟨rfl, by decide, trivial⟩
    ⟨rfl, by decide, rfl, by decide, trivial⟩
    (by decide) (by decide) (by decide) (by decide) "alice" "" 3 (by decide)
  exact h.1

/-- Claim C4: completeness and order of a single-query aggregation over
a chained page sequence — the output is exactly the concatenation of
every page's nodes, normalized, in page-then-within-page order, its
length is the total node count, and one round trip is issued per page;
this holds for `GetYourPrs` and for `GetYourAssignment`. -/
theorem c4_single_query_completeness
    (uP orgP : String) (fP : searchRoundTrip prSearchNodes)
    (pagesP : List (searchPage prSearchNodes))
    (hP : searchChain fP (prsFilter uP orgP) none pagesP) (hPne : pagesP ≠ [])
    (nP : Nat) (hnP : pagesP.length ≤ nP)
    (uA orgA : String) (fAq : searchRoundTrip assignmentSearchNodes)
    (pagesAq : List (searchPage assignmentSearchNodes))
    (hAq : searchChain fAq (assignmentFilter uA orgA) none pagesAq)
    (hAne : pagesAq ≠ []) (nA : Nat) (hnA : pagesAq.length ≤ nA) :
    ((GetYourPrs uP orgP fP nP).2 =
        .ret (((pagesP.map (fun pg => pg.nodes)).flatten).map
          normalizePrSearchNode) none ∧
      (((pagesP.map (fun pg => pg.nodes)).flatten).map
          normalizePrSearchNode).length =
        (pagesP.map (fun pg => pg.nodes.length)).sum ∧
      (GetYourPrs uP orgP fP nP).1.length = pagesP.length) ∧
    ((GetYourAssignment uA orgA fAq nA).2 =
        .ret (((pagesAq.map (fun pg => pg.nodes)).flatten).map
          normalizeAssignmentNode) none ∧
      (((pagesAq.map (fun pg => pg.nodes)).flatten).map
          normalizeAssignmentNode).length =
        (pagesAq.map (fun pg => pg.nodes.length)).sum ∧
      (GetYourAssignment uA orgA fAq nA).1.length = pagesAq.length) := by
  have hP1 := GetYourPrs_run uP orgP fP pagesP hP hPne nP hnP
  have hA1 := GetYourAssignment_run uA orgA fAq pagesAq hAq hAne nA hnA
  have hPpos := List.length_pos.mpr hPne
  have hApos := List.length_pos.mpr hAne
  refine ⟨⟨?_, ?_, ?_⟩, ⟨?_, ?_, ?_⟩⟩
  · rw [hP1]
  · simp only [List.length_map, List.length_flatten, List.map_map]; rfl
  · rw [hP1]
    simp only [List.length_cons, List.length_map, List.length_dropLast]
    omega
  · rw [hA1]
  · simp only [List.length_map, List.length_flatten, List.map_map]; rfl
  · rw [hA1]
    simp only [List.length_cons, List.length_map, List.length_dropLast]
    omega

/-- Witness for C4: a two-page pull-request run and the two-page
assignment run of the worked example. -/
theorem c4_single_query_completeness_witness :
    (GetYourPrs "alice" "" c4FetchPr 2).2 =
      .ret [normalizePrSearchNode (mkPrNode 1),
            normalizePrSearchNode (mkPrNode 2),
            normalizePrSearchNode (mkPrNode 3)] none ∧
    (GetYourAssignment "alice" "" c9Fetch 2).2 =
      .ret [normalizeAssignmentNode (mkAssignmentIssueNode 1),
            normalizeAssignmentNode (mkAssignmentIssueNode 2),
            normalizeAssignmentNode (mkAssignmentIssueNode 3)] none := by
  have h := c4_single_query_completeness "alice" "" c4FetchPr
    [c4PrPage1, c4PrPage2] ⟨rfl, by decide, rfl, by decide, trivial⟩
    (by decide) 2 (by decide)
    "alice" "" c9Fetch [c9Page1, c9Page2]
    ⟨rfl, by decide, rfl, by decide, trivial⟩ (by decide) 2 (by decide)
  exact ⟨h.1.1, h.2.1⟩

/-- Claim C5: error atomicity — if any aggregation call (`GetYourPrs`,
`GetYourAssignment`, `GetLHSData`) returns with an error, every result
list of the return value is nil regardless of what earlier pages
contributed, and the error is one produced by the round-trip oracle. -/
theorem c5_error_atomicity :
    (∀ (u org : String) (f : searchRoundTrip prSearchNodes) (n : Nat)
        (tr2 : List singleParams) (rs : List Issue) (e : String),
      GetYourPrs u org f n = (tr2, .ret rs (some e)) →
      rs = [] ∧ ∃ p, f p = .error e) ∧
    (∀ (u org : String) (f : searchRoundTrip assignmentSearchNodes) (n : Nat)
        (tr2 : List singleParams) (rs : List Issue) (e : String),
      GetYourAssignment u org f n = (tr2, .ret rs (some e)) →
      rs = [] ∧ ∃ p, f p = .error e) ∧
    (∀ (u org : String) (F : lhsRoundTrip) (n : Nat) (tr2 : List lhsParams)
        (a b c : List Issue) (e : String),
      GetLHSData u org F n = (tr2, .ret a b c (some e)) →
      a = [] ∧ b = [] ∧ c = [] ∧ ∃ p, F p = .error e) := by
  refine ⟨?_, ?_, ?_⟩
  · intro u org f n tr2 rs e h
    exact searchLoop_error normalizePrSearchNode f n
      ⟨prsFilter u org, none⟩ [] tr2 [] rs e h
  · intro u org f n tr2 rs e h
    exact searchLoop_error normalizeAssignmentNode f n
      ⟨assignmentFilter u org, none⟩ [] tr2 [] rs e h
  · intro u org F n tr2 a b c e h
    exact lhsLoop_error F n (lhsInitParams u org) false false false
      [] [] [] [] tr2 a b c e h

/-- Witness for C5: a transport failure on the first round of each of
the three calls surfaces the oracle's error. -/
theorem c5_error_atomicity_witness :
    (∃ p : singleParams, errFetchPr p = .error "boom") ∧
    (∃ p : singleParams, errFetchAsg p = .error "boom") ∧
    (∃ p : lhsParams, errFetchLHS p = .error "boom") := by
  refine ⟨?_, ?_, ?_⟩
  · exact (c5_error_atomicity.1 "alice" "" errFetchPr 1
      [⟨prsFilter "alice" "", none⟩] [] "boom" rfl).2
  · exact (c5_error_atomicity.2.1 "alice" "" errFetchAsg 1
      [⟨assignmentFilter "alice" "", none⟩] [] "boom" rfl).2
  · exact (c5_error_atomicity.2.2 "alice" "" errFetchLHS 1
      [lhsInitParams "alice" ""] [] [] [] "boom" rfl).2.2.2

/-- Counterexample to C7 as stated: two `GetLHSData` runs that agree on
query A's pages (A = the review query, served by `c1FetchR` in both)
but differ only in query B's pages (B = the assignee query: one node in
run 1, zero nodes in run 2) do not yield identical outputs for A — run
1 dies in the normalizer's nil dereference and returns nothing for A,
run 2 returns A's nodes. -/
theorem c7_independence_counterexample :
    lhsReviewResult
        (GetLHSData "alice" "" (combineFetch c1FetchR c7FetchA c1FetchO) 3).2 ≠
      lhsReviewResult
        (GetLHSData "alice" "" (combineFetch c1FetchR c1FetchA c1FetchO) 3).2 := by
  decide

/-- Claim C7 amended: provided both runs complete without error or
panic (in particular neither run's assignment pages carry nodes — any
assignment node crashes the call), each named output sequence is a
function only of that query's own pages: two runs agreeing on the
review query's oracle produce the identical review output, namely
exactly the normalization of the review query's own pages' nodes (so no
node delivered for another query can appear in it), however many rounds
the other queries need. -/
theorem c7_independence_amended (fPR : queryOracle prSearchNodes)
    (fA fA' : queryOracle assignmentSearchNodes)
    (fO fO' : queryOracle prSearchNodes)
    (pagesR : List (searchPage prSearchNodes))
    (pagesA pagesA' : List (searchPage assignmentSearchNodes))
    (pagesO pagesO' : List (searchPage prSearchNodes))
    (hR : queryChain fPR none pagesR)
    (hA : queryChain fA none pagesA) (hA' : queryChain fA' none pagesA')
    (hO : queryChain fO none pagesO) (hO' : queryChain fO' none pagesO')
    (hRne : pagesR ≠ []) (hAne : pagesA ≠ []) (hAne' : pagesA' ≠ [])
    (hOne : pagesO ≠ []) (hOne' : pagesO' ≠ [])
    (hA0 : ∀ pg ∈ pagesA, pg.nodes = []) (hA0' : ∀ pg ∈ pagesA', pg.nodes = [])
    (u org : String) (n n' : Nat)
    (hn : max (max pagesR.length pagesA.length) pagesO.length < n)
    (hn' : max (max pagesR.length pagesA'.length) pagesO'.length < n') :
    lhsReviewResult (GetLHSData u org (combineFetch fPR fA fO) n).2 =
      some (prPagesOut pagesR) ∧
    lhsReviewResult (GetLHSData u org (combineFetch fPR fA' fO') n').2 =
      some (prPagesOut pagesR) ∧
    lhsReviewResult (GetLHSData u org (combineFetch fPR fA fO) n).2 =
      lhsReviewResult (GetLHSData u org (combineFetch fPR fA' fO') n').2 := by
  have h1 := GetLHSData_run u org fPR fA fO pagesR pagesA pagesO
    hR hA hO hRne hAne hOne hA0 n hn
  have h2 := GetLHSData_run u org fPR fA' fO' pagesR pagesA' pagesO'
    hR hA' hO' hRne hAne' hOne' hA0' n' hn'
  rw [h1, h2]
  exact ⟨rfl, rfl, rfl⟩

/-- Witness for the amended C7: two concrete runs sharing the review
oracle, with different open-PR oracles needing two rounds and one round
respectively, agree on the review output. -/
theorem c7_independence_amended_witness :
    lhsReviewResult
        (GetLHSData "alice" "" (combineFetch c1FetchR c1FetchA c1FetchO) 3).2 =
      lhsReviewResult
        (GetLHSData "alice" "" (combineFetch c1FetchR c1FetchA c7FetchOther) 2).2 := by
  exact (c7_independence_amended c1FetchR c1FetchA c1FetchA c1FetchO c7FetchOther
    [c1PageR1] [c1PageA1] [c1PageA1] [c1PageO1, c1PageO2] [c7PageOther]
    ⟨rfl, by decide, trivial⟩ ⟨rfl, by decide, trivial⟩ ⟨rfl, by decide, trivial⟩
    ⟨rfl, by decide, rfl, by decide, trivial⟩ ⟨rfl, by decide, trivial⟩
    (by decide) (by decide) (by decide) (by decide) (by decide)
    (by decide) (by decide) "alice" "" 3 2 (by decide) (by decide)).2.2

/-- Claim C8: with a non-empty organization configured (and the clause
occurring once in `org:<org>` and never in the base filters), every
request of every round carries a filter expression equal to the
org-prefixed filter built at construction time — so the prefix is in
place for the first request, the expression never changes between
rounds (only the cursors do), and it contains the organization clause
exactly once; for `GetYourPrs` and for all three queries of
`GetLHSData`. -/
theorem c8_filter_immutable (u org : String) (horg : org ≠ "")
    (h1 : countOccStr ("org:" ++ org) "org:" = 1)
    (hb1 : countOccStr ("author:" ++ u ++ " is:pr is:OPEN archived:false")
      "org:" = 0)
    (hb2 : countOccStr ("review-requested:" ++ u ++ " is:pr is:OPEN archived:false")
      "org:" = 0)
    (hb3 : countOccStr ("assignee:" ++ u ++ " is:OPEN archived:false")
      "org:" = 0) :
    (∀ (f : searchRoundTrip prSearchNodes) (n : Nat) (x : singleParams),
      x ∈ (GetYourPrs u org f n).1 →
      x.searchQuery = "org:" ++ org ++ " " ++
        ("author:" ++ u ++ " is:pr is:OPEN archived:false") ∧
      countOccStr x.searchQuery "org:" = 1) ∧
    (∀ (F : lhsRoundTrip) (n : Nat) (x : lhsParams),
      x ∈ (GetLHSData u org F n).1 →
      (x.prOpenQueryArg = "org:" ++ org ++ " " ++
          ("author:" ++ u ++ " is:pr is:OPEN archived:false") ∧
        countOccStr x.prOpenQueryArg "org:" = 1) ∧
      (x.prReviewQueryArg = "org:" ++ org ++ " " ++
          ("review-requested:" ++ u ++ " is:pr is:OPEN archived:false") ∧
        countOccStr x.prReviewQueryArg "org:" = 1) ∧
      (x.assigneeQueryArg = "org:" ++ org ++ " " ++
          ("assignee:" ++ u ++ " is:OPEN archived:false") ∧
        countOccStr x.assigneeQueryArg "org:" = 1)) := by
  have hq : prsFilter u org = "org:" ++ org ++ " " ++
      ("author:" ++ u ++ " is:pr is:OPEN archived:false") := by
    unfold prsFilter
    rw [if_pos horg]
  have hi1 : (lhsInitParams u org).prOpenQueryArg = "org:" ++ org ++ " " ++
      ("author:" ++ u ++ " is:pr is:OPEN archived:false") := by
    unfold lhsInitParams
    rw [if_pos horg]
  have hi2 : (lhsInitParams u org).prReviewQueryArg = "org:" ++ org ++ " " ++
      ("review-requested:" ++ u ++ " is:pr is:OPEN archived:false") := by
    unfold lhsInitParams
    rw [if_pos horg]
  have hi3 : (lhsInitParams u org).assigneeQueryArg = "org:" ++ org ++ " " ++
      ("assignee:" ++ u ++ " is:OPEN archived:false") := by
    unfold lhsInitParams
    rw [if_pos horg]
  constructor
  · intro f n x hx
    rcases searchLoop_queryArg normalizePrSearchNode f n
        ⟨prsFilter u org, none⟩ [] [] x hx with hmem | harg
    · exact absurd hmem (List.not_mem_nil x)
    · have hxq : x.searchQuery = "org:" ++ org ++ " " ++
          ("author:" ++ u ++ " is:pr is:OPEN archived:false") := by
        rw [harg]; exact hq
      exact ⟨hxq, by rw [hxq]; exact countOccStr_orgScoped org _ h1 hb1⟩
  · intro F n x hx
    rcases lhsLoop_queryArgs F n (lhsInitParams u org) false false false
        [] [] [] [] x hx with hmem | ⟨ha1, ha2, ha3⟩
    · exact absurd hmem (List.not_mem_nil x)
    · have hx1 : x.prOpenQueryArg = "org:" ++ org ++ " " ++
          ("author:" ++ u ++ " is:pr is:OPEN archived:false") := by
        rw [ha1]; exact hi1
      have hx2 : x.prReviewQueryArg = "org:" ++ org ++ " " ++
          ("review-requested:" ++ u ++ " is:pr is:OPEN archived:false") := by
        rw [ha2]; exact hi2
      have hx3 : x.assigneeQueryArg = "org:" ++ org ++ " " ++
          ("assignee:" ++ u ++ " is:OPEN archived:false") := by
        rw [ha3]; exact hi3
      exact ⟨⟨hx1, by rw [hx1]; exact countOccStr_orgScoped org _ h1 hb1⟩,
        ⟨hx2, by rw [hx2]; exact countOccStr_orgScoped org _ h1 hb2⟩,
        ⟨hx3, by rw [hx3]; exact countOccStr_orgScoped org _ h1 hb3⟩⟩

/-- Witness for C8 at org "acme", user "alice": the filter actually
sent carries the clause exactly once. -/
theorem c8_filter_immutable_witness :
    countOccStr "org:acme author:alice is:pr is:OPEN archived:false" "org:" = 1 ∧
    countOccStr "org:acme assignee:alice is:OPEN archived:false" "org:" = 1 := by
  have h := c8_filter_immutable "alice" "acme" (by decide) (by decide)
    (by decide) (by decide) (by decide)
  refine ⟨?_, ?_⟩
  · exact (h.1 errFetchPr 1
      ⟨"org:acme author:alice is:pr is:OPEN archived:false", none⟩ (by decide)).2
  · exact (h.2 errFetchLHS 1
      ⟨"org:acme author:alice is:pr is:OPEN archived:false",
       "org:acme review-requested:alice is:pr is:OPEN archived:false",
       "org:acme assignee:alice is:OPEN archived:false",
       none, none, none⟩ (by decide)).2.2.2

/-- Termination of `GetLHSData` over chained per-query oracles with
arbitrary node contents: with fuel beyond the longest query's page
count the call never runs out of fuel, and it issues at most one round
trip per page of the longest query. -/
theorem GetLHSData_no_fuelOut (u org : String)
    (fPR : queryOracle prSearchNodes) (fA : queryOracle assignmentSearchNodes)
    (fO : queryOracle prSearchNodes)
    (pagesR : List (searchPage prSearchNodes))
    (pagesA : List (searchPage assignmentSearchNodes))
    (pagesO : List (searchPage prSearchNodes))
    (hR : queryChain fPR none pagesR) (hA : queryChain fA none pagesA)
    (hO : queryChain fO none pagesO)
    (hRne : pagesR ≠ []) (hAne : pagesA ≠ []) (hOne : pagesO ≠ []) (n : Nat)
    (hn : max (max pagesR.length pagesA.length) pagesO.length < n) :
    (GetLHSData u org (combineFetch fPR fA fO) n).2 ≠ .fuelOut ∧
    (GetLHSData u org (combineFetch fPR fA fO) n).1.length ≤
      max (max pagesR.length pagesA.length) pagesO.length := by
  have heq : lhsLoop (combineFetch fPR fA fO) n
      (lhsReqAt (lhsInitParams u org).prOpenQueryArg
        (lhsInitParams u org).prReviewQueryArg
        (lhsInitParams u org).assigneeQueryArg pagesR pagesA pagesO 0)
      (decide (pagesR.length ≤ 0)) (decide (pagesA.length ≤ 0))
      (decide (pagesO.length ≤ 0)) [] [] [] [] =
      ((GetLHSData u org (combineFetch fPR fA fO) n).1,
       (GetLHSData u org (combineFetch fPR fA fO) n).2) := by
    rw [Prod.mk.eta]
    rw [show decide (pagesR.length ≤ 0) = false from
      decide_eq_false (by have := List.length_pos.mpr hRne; omega)]
    rw [show decide (pagesA.length ≤ 0) = false from
      decide_eq_false (by have := List.length_pos.mpr hAne; omega)]
    rw [show decide (pagesO.length ≤ 0) = false from
      decide_eq_false (by have := List.length_pos.mpr hOne; omega)]
    rw [← lhsInitParams_reqAt u org pagesR pagesA pagesO]
    rfl
  have key := lhsLoop_no_fuelOut fPR fA fO pagesR pagesA pagesO hR hA hO
    (lhsInitParams u org).prOpenQueryArg (lhsInitParams u org).prReviewQueryArg
    (lhsInitParams u org).assigneeQueryArg n 0 []
    (GetLHSData u org (combineFetch fPR fA fO) n).1 [] [] []
    (GetLHSData u org (combineFetch fPR fA fO) n).2
    (Nat.zero_le _) (by omega) heq
  refine ⟨key.1, ?_⟩
  have h2 := key.2
  simpa using h2

/-- Claim C10: under the precondition that every query's page stream
eventually reports hasNextPage = false (a finite chained page list per
query), every aggregation call terminates after finitely many round
trips: the single-query loop completes in exactly one round trip per
page, and the combined three-flag loop of `GetLHSData` never exhausts
fuel beyond the longest query's page count, issuing at most one round
trip per page of that query. -/
theorem c10_termination :
    (∀ (u org : String) (f : searchRoundTrip assignmentSearchNodes)
        (pages : List (searchPage assignmentSearchNodes)),
      searchChain f (assignmentFilter u org) none pages → pages ≠ [] →
      ∀ n : Nat, pages.length ≤ n →
      (GetYourAssignment u org f n).2 ≠ .fuelOut ∧
        (GetYourAssignment u org f n).1.length = pages.length) ∧
    (∀ (u org : String) (fPR : queryOracle prSearchNodes)
        (fA : queryOracle assignmentSearchNodes) (fO : queryOracle prSearchNodes)
        (pagesR : List (searchPage prSearchNodes))
        (pagesA : List (searchPage assignmentSearchNodes))
        (pagesO : List (searchPage prSearchNodes)),
      queryChain fPR none pagesR → queryChain fA none pagesA →
      queryChain fO none pagesO →
      pagesR ≠ [] → pagesA ≠ [] → pagesO ≠ [] →
      ∀ n : Nat, max (max pagesR.length pagesA.length) pagesO.length < n →
      (GetLHSData u org (combineFetch fPR fA fO) n).2 ≠ .fuelOut ∧
        (GetLHSData u org (combineFetch fPR fA fO) n).1.length ≤
          max (max pagesR.length pagesA.length) pagesO.length) := by
  constructor
  · intro u org f pages hchain hne n hn
    have h := GetYourAssignment_run u org f pages hchain hne n hn
    have hpos := List.length_pos.mpr hne
    rw [h]
    refine ⟨by simp, ?_⟩
    simp only [List.length_cons, List.length_map, List.length_dropLast]
    omega
  · intro u org fPR fA fO pagesR pagesA pagesO hR hA hO hRne hAne hOne n hn
    exact GetLHSData_no_fuelOut u org fPR fA fO pagesR pagesA pagesO
      hR hA hO hRne hAne hOne n hn

/-- Witness for C10 at the concrete fixture runs. -/
theorem c10_termination_witness :
    (GetYourAssignment "alice" "" c9Fetch 2).2 ≠ .fuelOut ∧
    (GetLHSData "alice" "" (combineFetch c1FetchR c1FetchA c1FetchO) 3).2 ≠
      .fuelOut := by
  refine ⟨?_, ?_⟩
  · exact (c10_termination.1 "alice" "" c9Fetch [c9Page1, c9Page2]
      ⟨rfl, by decide, rfl, by decide, trivial⟩ (by decide) 2 (by decide)).1
  · exact (c10_termination.2 "alice" "" c1FetchR c1FetchA c1FetchO
      [c1PageR1] [c1PageA1] [c1PageO1, c1PageO2]
      ⟨rfl, by decide, trivial⟩ ⟨rfl, by decide, trivial⟩
      ⟨rfl, by decide, rfl, by decide, trivial⟩
      (by decide) (by decide) (by decide) 3 (by decide)).1

end MmGithub

